import Mathlib

set_option maxRecDepth 8000

/-!
Verification of mopidy's MPD request-handling layer and of its config value
types.

Sources:
* `src/mopidy/config/types.py` — the `decode`/`encode` escape helpers and the
  `String`/`Secret` config value serializers are embedded directly from the
  code (str branch; the `bytes` surrogate-escape branch is out of scope).
* The MPD handler (`mopidy.mpd.handler`) is exercised by
  `src/tests/mpd/handlertest.py` but its implementation is not part of the
  excerpt.  Its dispatcher, command-list state machine and response formatter
  are therefore modelled from the specification (spec.md §3, §4.1–§4.4, §7),
  with the exact wire lines pinned by the assertions of the tests: the tests
  check whole-line membership such as `u'ACK Not implemented' in result` and
  `u'ACK Position out of bounds' in result`, so an error is emitted as the
  single line `ACK <message>`.
-/

/-- Python `str.replace` specialised to a one-character pattern `p`:
every occurrence of `p` is replaced by `rep`, scanning left to right.
`mopidy/config/types.py` applies `str.replace` with the one-character
patterns `"\\"`, `"\n"`, `"\t"` in `encode` (lines 45–53). -/
def replace1 (p : Char) (rep : List Char) : List Char → List Char
  | [] => []
  | c :: l => if c = p then rep ++ replace1 p rep l else c :: replace1 p rep l

/-- Python `str.replace` specialised to a two-character pattern `p, q`:
non-overlapping occurrences are replaced by `rep`, scanning left to right and
resuming after each replacement (exactly `str.replace`'s semantics).
`mopidy/config/types.py` applies `str.replace` with the two-character
patterns `"\\\\"`, `"\\n"`, `"\\t"` in `decode` (lines 34–42). -/
def replace2 (p q : Char) (rep : List Char) : List Char → List Char
  | [] => []
  | [c] => [c]
  | c :: d :: l =>
    if c = p ∧ d = q then rep ++ replace2 p q rep l
    else c :: replace2 p q rep (d :: l)

/-- `mopidy/config/types.py`, `decode` (lines 34–42), on the character list:
for `char in ("\\", "\n", "\t")`, replace the unicode-escape of `char` by
`char`, i.e. successively `"\\\\"→"\\"`, then `"\\n"→"\n"`, then
`"\\t"→"\t"`. -/
def decodeChars (l : List Char) : List Char :=
  replace2 '\\' 't' ['\t'] (replace2 '\\' 'n' ['\n'] (replace2 '\\' '\\' ['\\'] l))

/-- `mopidy/config/types.py`, `decode`, on strings (str branch). -/
def decode (value : String) : String := ⟨decodeChars value.data⟩

/-- `mopidy/config/types.py`, `encode` (lines 45–53), on the character list:
for `char in ("\\", "\n", "\t")`, replace `char` by its unicode-escape,
i.e. successively `"\\"→"\\\\"`, then `"\n"→"\\n"`, then `"\t"→"\\t"`. -/
def encodeChars (l : List Char) : List Char :=
  replace1 '\t' ['\\', 't'] (replace1 '\n' ['\\', 'n'] (replace1 '\\' ['\\', '\\'] l))

/-- `mopidy/config/types.py`, `encode`, on strings (str branch). -/
def encode (value : String) : String := ⟨encodeChars value.data⟩

/-- A config string value as handled by `String.serialize` in
`mopidy/config/types.py`: either a plain string, or a `_TransformedValue`
(lines 60–65), which behaves as the transformed text but keeps the
`original` text around. -/
inductive StrValue
  | plain (s : String)
  | transformed (original transformed : String)
  deriving DecidableEq

/-- The string `String.serialize` falls back to: the value itself for a plain
string, the `original` attribute for a `_TransformedValue` (lines 146–147). -/
def StrValue.original : StrValue → String
  | StrValue.plain s => s
  | StrValue.transformed o _ => o

/-- `String.serialize` from `mopidy/config/types.py` (lines 143–148):
`None` serialises to `""`; a `_TransformedValue` is unwrapped to its
original; the result is `encode`d.  `display` is ignored. -/
def String.serialize (value : Option StrValue) (display : Bool) : String :=
  match value with
  | none => ""
  | some v => encode v.original

/-- `Secret.serialize` from `mopidy/config/types.py` (lines 172–175):
`if value is not None and display: return "********"`, otherwise defer to
`String.serialize`. -/
def Secret.serialize (value : Option StrValue) (display : Bool) : String :=
  if value.isSome && display then "********" else String.serialize value display

/-- Character-escaping map used only in proofs about `encode`/`decode`:
the per-character effect of `encode` on a backslash-free input. -/
def escChar (c : Char) : List Char :=
  if c = '\n' then ['\\', 'n'] else if c = '\t' then ['\\', 't'] else [c]

/-- Modelled from the spec: the error taxonomy of §7 for the MPD handler,
whose implementation (`mopidy.mpd.handler`) is not in the excerpt. -/
inductive AckKind
  | unknownCommand
  | malformedRequest
  | notImplemented
  | domainError
  | internalError
  deriving DecidableEq

/-- Modelled from the spec: a protocol-error Response (§3) — kind, human
message, 1-based index of the failing command within the current command
list (0 outside any list), and the literal failing command text. -/
structure MpdAck where
  kind : AckKind
  message : String
  index : Nat
  commandText : String
  deriving DecidableEq

/-- Modelled from the spec: a Response (§3) is either a success payload
(ordered response lines) or a protocol error. -/
inductive Response
  | success (payload : List String)
  | error (ack : MpdAck)
  deriving DecidableEq

/-- Playback states relayed by the backend façade (spec §4.5). -/
inductive PlaybackState
  | playing
  | paused
  | stopped
  deriving DecidableEq

/-- Modelled from the spec: the slice of the backend capability façade (§4.5)
the embedded command catalog touches — the playback state and the current
playlist (tracks stand for their ids). -/
structure Backend where
  playbackState : PlaybackState
  currentPlaylist : List Nat
  deriving DecidableEq

/-- Command-list transaction states (spec §4.3). -/
inductive ListMode
  | none
  | list
  | listOk
  deriving DecidableEq

/-- Modelled from the spec: per-connection Session state (§3) together with
the backend reference the handler dispatches against.  The tests read the
same data as `handler.command_list` / `handler.command_list_ok`. -/
structure MpdHandler where
  listMode : ListMode
  bufferedRequests : List String
  backend : Backend
  deriving DecidableEq

/-- Appends the pending token, if any, to the token accumulator. -/
def flushTok (cur : Option (List Char)) (acc : List String) : List String :=
  match cur with
  | some t => acc ++ [String.mk t]
  | none => acc

/-- Modelled from the spec: the request tokenizer of §4.2.  Splits on
whitespace outside of double-quoted segments; inside quotes a backslash
escapes a quote or a backslash and is otherwise literal; an unterminated
quote is a malformed request.  State: remaining input, inside-quote flag,
pending-escape flag, current token, emitted tokens. -/
def tokAux : List Char → Bool → Bool → Option (List Char) → List String →
    Except String (List String)
  | [], true, _, _, _ => Except.error "Unterminated quoted string"
  | [], false, _, cur, acc => Except.ok (flushTok cur acc)
  | c :: rest, true, true, cur, acc =>
    if c = '"' ∨ c = '\\' then tokAux rest true false (some (cur.getD [] ++ [c])) acc
    else tokAux rest true false (some (cur.getD [] ++ ['\\', c])) acc
  | c :: rest, true, false, cur, acc =>
    if c = '"' then tokAux rest false false cur acc
    else if c = '\\' then tokAux rest true true cur acc
    else tokAux rest true false (some (cur.getD [] ++ [c])) acc
  | c :: rest, false, _, cur, acc =>
    if c = '"' then tokAux rest true false (some (cur.getD [])) acc
    else if c = ' ' ∨ c = '\t' then tokAux rest false false none (flushTok cur acc)
    else tokAux rest false false (some (cur.getD [] ++ [c])) acc

/-- Modelled from the spec: `tokenize(line)` (§4.2).  An empty line yields
zero tokens (the keep-alive no-op request). -/
def tokenize (line : String) : Except String (List String) :=
  tokAux line.data false false none []

/-- Python `int(str)` on a decimal-digit argument, on the character list:
`some` of the value when the text is a non-empty digit string, `none`
otherwise (handlers report "not a valid integer", spec §4.2). -/
def parseNatChars (l : List Char) : Option Nat :=
  if l ≠ [] ∧ l.all (fun c => c.isDigit) then
    some (l.foldl (fun n c => n * 10 + (c.toNat - 48)) 0)
  else none

/-- Python `int(str)` on strings. -/
def parseNat (s : String) : Option Nat := parseNatChars s.data

/-- Modelled from the spec: the fragment of the registered command catalog
the claims exercise, with the behaviour pinned by the tests —
`ping` succeeds with no payload, `clearerror` answers `Not implemented`,
`stop` stops playback, `play [pos]` plays (out-of-bounds positions answer
`Position out of bounds` and leave the backend untouched).  Anything else is
an unknown command (§4.1). -/
def runCommand (bk : Backend) (name : String) (args : List String) (line : String) :
    Backend × Response :=
  if name = "ping" then (bk, Response.success [])
  else if name = "clearerror" then
    (bk, Response.error ⟨AckKind.notImplemented, "Not implemented", 0, line⟩)
  else if name = "stop" then
    ({ bk with playbackState := PlaybackState.stopped }, Response.success [])
  else if name = "play" then
    match args with
    | [] => ({ bk with playbackState := PlaybackState.playing }, Response.success [])
    | [p] =>
      match parseNat p with
      | some pos =>
        if pos < bk.currentPlaylist.length then
          ({ bk with playbackState := PlaybackState.playing }, Response.success [])
        else
          (bk, Response.error ⟨AckKind.domainError, "Position out of bounds", 0, line⟩)
      | none =>
        (bk, Response.error ⟨AckKind.malformedRequest, "Not a valid integer", 0, line⟩)
    | _ =>
      (bk, Response.error ⟨AckKind.malformedRequest, "Wrong number of arguments", 0, line⟩)
  else (bk, Response.error ⟨AckKind.unknownCommand, "Unknown command", 0, line⟩)

/-- The command names the modelled catalog recognises. -/
def knownCommand (name : String) : Prop :=
  name = "ping" ∨ name = "clearerror" ∨ name = "stop" ∨ name = "play"

/-- Modelled from the spec: dispatch of one request line outside any
command-list bookkeeping (§4.1, §4.2): tokenize, treat the empty line as a
no-op success, otherwise run the matched command; a tokenizer failure is a
malformed-request error. -/
def dispatchCore (bk : Backend) (line : String) : Backend × Response :=
  match tokenize line with
  | Except.error m => (bk, Response.error ⟨AckKind.malformedRequest, m, 0, line⟩)
  | Except.ok [] => (bk, Response.success [])
  | Except.ok (name :: args) => runCommand bk name args line

/-- Modelled from the spec: sequential replay of a buffered command list
(§4.3).  `i` is the 1-based position of the next command.  On the first
failure replay stops and the error is annotated with its position and the
literal buffered text; on success the commands' payload lines are
accumulated, with one `list_OK` line after each command when `lok`. -/
def replayCmds (lok : Bool) : List String → Backend → Nat →
    Backend × Except MpdAck (List String)
  | [], bk, _ => (bk, Except.ok [])
  | c :: rest, bk, i =>
    match dispatchCore bk c with
    | (bk', Response.success p) =>
      match replayCmds lok rest bk' (i + 1) with
      | (bk'', Except.ok lines) =>
        (bk'', Except.ok (p ++ (if lok then ["list_OK"] else []) ++ lines))
      | (bk'', Except.error a) => (bk'', Except.error a)
    | (bk', Response.error a) =>
      (bk', Except.error { a with index := i, commandText := c })

/-- Modelled from the spec: handling of a request while no command list is
open (§4.1, §4.3): the two list-begin commands open a list and produce no
response; a list-end with no open list is an unbalanced-terminator error;
everything else goes through `dispatchCore`. -/
def dispatchTop (st : MpdHandler) (line : String) : MpdHandler × Option Response :=
  if line = "command_list_begin" then
    ({ st with listMode := ListMode.list, bufferedRequests := [] }, none)
  else if line = "command_list_ok_begin" then
    ({ st with listMode := ListMode.listOk, bufferedRequests := [] }, none)
  else if line = "command_list_end" then
    (st, some (Response.error ⟨AckKind.malformedRequest, "Unbalanced command list end", 0, line⟩))
  else
    let r := dispatchCore st.backend line
    ({ st with backend := r.1 }, some r.2)

/-- Modelled from the spec: handling of a request while a command list is
open (§4.3): the list-end command replays the buffer and resets the session
(whether replay succeeded or failed); a nested list-begin is a malformed
nesting error that does not overwrite the buffer; any other request is
appended verbatim to the buffer and produces no response. -/
def dispatchInList (st : MpdHandler) (lok : Bool) (line : String) :
    MpdHandler × Option Response :=
  if line = "command_list_end" then
    match replayCmds lok st.bufferedRequests st.backend 1 with
    | (bk', Except.ok lines) =>
      (⟨ListMode.none, [], bk'⟩, some (Response.success lines))
    | (bk', Except.error a) =>
      (⟨ListMode.none, [], bk'⟩, some (Response.error a))
  else if line = "command_list_begin" ∨ line = "command_list_ok_begin" then
    (st, some (Response.error ⟨AckKind.malformedRequest, "Already in command list", 0, line⟩))
  else
    ({ st with bufferedRequests := st.bufferedRequests ++ [line] }, none)

/-- Modelled from the spec: `dispatch(requestLine, session, backend)` (§4.1,
§4.3) — the command-list state machine wrapped around single-request dispatch.
`none` means no response is sent (the request was buffered or a list was
opened). -/
def dispatch (st : MpdHandler) (line : String) : MpdHandler × Option Response :=
  match st.listMode with
  | ListMode.none => dispatchTop st line
  | ListMode.list => dispatchInList st false line
  | ListMode.listOk => dispatchInList st true line

/-- The response formatter.  A success payload is emitted followed by the
terminating `OK` marker.  An error is emitted as the single line
`ACK <message>`: the exact shape is pinned by the repository's tests, which
assert whole-line membership of `ACK Not implemented`,
`ACK Position out of bounds` and `ACK Track with ID "1" not found`
(`handlertest.py` lines 94, 429, 441). -/
def formatResponse : Response → List String
  | Response.success payload => payload ++ ["OK"]
  | Response.error a => ["ACK " ++ a.message]

/-- `handle_request` as the tests call it: dispatch the line, and format the
response into wire lines (`None` while a list is being buffered). -/
def handle_request (st : MpdHandler) (line : String) :
    MpdHandler × Option (List String) :=
  let r := dispatch st line
  (r.1, r.2.map formatResponse)

/-- Feeds a sequence of request lines through `dispatch`, collecting the
per-line responses. -/
def feedAll : MpdHandler → List String → MpdHandler × List (Option Response)
  | st, [] => (st, [])
  | st, l :: ls =>
    let r := dispatch st l
    let rest := feedAll r.1 ls
    (rest.1, r.2 :: rest.2)

/-- Modelled from the spec: `register(pattern)` applied to a handler
function (§4.1) over an explicit registry.  Registering an already-present
pattern is a configuration error (the tests expect a `ValueError`,
`handlertest.py` lines 23–30). -/
def register {α : Type} (pattern : String) (func : α)
    (registry : List (String × α)) : Except String (List (String × α)) :=
  if registry.any (fun e => e.1 == pattern) then
    Except.error ("Pattern already registered: " ++ pattern)
  else
    Except.ok (registry ++ [(pattern, func)])

/-- The handler bound to a pattern in the registry, if any. -/
def lookupHandler {α : Type} (pattern : String)
    (registry : List (String × α)) : Option α :=
  (registry.find? (fun e => e.1 == pattern)).map Prod.snd

/-- A request line that is none of the three command-list control words, so
that it is buffered verbatim while a list is open. -/
def ControlFree (c : String) : Prop :=
  c ≠ "command_list_begin" ∧ c ≠ "command_list_ok_begin" ∧ c ≠ "command_list_end"

/-- A command that dispatches successfully from every backend state, with a
payload containing neither an `OK` nor a `list_OK` line (formalising a
"well-formed recognized command" that replays successfully). -/
def GoodDispatch (c : String) : Prop :=
  ∀ bk : Backend, ∃ bk' payload,
    dispatchCore bk c = (bk', Response.success payload)
    ∧ payload.count "OK" = 0 ∧ payload.count "list_OK" = 0

/-- A buffered command that is not a control word and replays successfully. -/
def GoodCmd (c : String) : Prop := ControlFree c ∧ GoodDispatch c

lemma replace1_cons (p : Char) (rep : List Char) (c : Char) (l : List Char) :
    replace1 p rep (c :: l) = (if c = p then rep else [c]) ++ replace1 p rep l := by
  by_cases h : c = p <;> simp [replace1, h]

lemma replace1_append (p : Char) (rep : List Char) (l₁ l₂ : List Char) :
    replace1 p rep (l₁ ++ l₂) = replace1 p rep l₁ ++ replace1 p rep l₂ := by
  induction l₁ with
  | nil => simp [replace1]
  | cons c t ih => by_cases h : c = p <;> simp [replace1, h, ih]

lemma r2_cons_ne {p q x : Char} {rep M : List Char} (hx : x ≠ p) :
    replace2 p q rep (x :: M) = x :: replace2 p q rep M := by
  cases M with
  | nil => simp [replace2]
  | cons d t => simp [replace2, hx]

lemma r2_snd_ne {p q x d : Char} {rep M : List Char} (hd : d ≠ q) :
    replace2 p q rep (x :: d :: M) = x :: replace2 p q rep (d :: M) := by
  simp [replace2, hd]

lemma r2_hit {p q : Char} {rep M : List Char} :
    replace2 p q rep (p :: q :: M) = rep ++ replace2 p q rep M := by
  simp [replace2]

lemma encodeChars_cons (c : Char) (l : List Char) (hc : c ≠ '\\') :
    encodeChars (c :: l) = escChar c ++ encodeChars l := by
  simp only [encodeChars]
  rw [replace1_cons '\\' _ c l, if_neg hc, replace1_append, replace1_append]
  congr 1
  by_cases hn : c = '\n'
  · subst hn; decide
  · by_cases ht : c = '\t'
    · subst ht; decide
    · simp [replace1, escChar, hn, ht]

lemma decodeChars_esc_cons (c : Char) (hc : c ≠ '\\') (M : List Char) :
    decodeChars (escChar c ++ M) = c :: decodeChars M := by
  by_cases hn : c = '\n'
  · subst hn
    show decodeChars ('\\' :: 'n' :: M) = '\n' :: decodeChars M
    simp only [decodeChars]
    rw [r2_snd_ne (show 'n' ≠ '\\' by decide), r2_cons_ne (show 'n' ≠ '\\' by decide),
      r2_hit]
    simp only [List.singleton_append]
    rw [r2_cons_ne (show '\n' ≠ '\\' by decide)]
  · by_cases ht : c = '\t'
    · subst ht
      show decodeChars ('\\' :: 't' :: M) = '\t' :: decodeChars M
      simp only [decodeChars]
      rw [r2_snd_ne (show 't' ≠ '\\' by decide), r2_cons_ne (show 't' ≠ '\\' by decide),
        r2_snd_ne (show 't' ≠ 'n' by decide), r2_cons_ne (show 't' ≠ '\\' by decide),
        r2_hit]
      simp only [List.singleton_append]
    · have he : escChar c = [c] := by simp [escChar, hn, ht]
      rw [he]
      simp only [List.singleton_append, decodeChars]
      rw [r2_cons_ne hc, r2_cons_ne hc, r2_cons_ne hc]

/-- Claim C9 (amended): for strings without a backslash, decoding after
encoding is the identity in `mopidy/config/types.py`. -/
theorem decode_encode_no_backslash (s : String) (h : '\\' ∉ s.data) :
    decode (encode s) = s := by
  have main : ∀ l : List Char, '\\' ∉ l → decodeChars (encodeChars l) = l := by
    intro l
    induction l with
    | nil => intro _; rfl
    | cons c t ih =>
      intro hl
      have hc : c ≠ '\\' := fun e => hl (by simp [e])
      have ht : '\\' ∉ t := fun m => hl (List.mem_cons_of_mem c m)
      rw [encodeChars_cons c t hc, decodeChars_esc_cons c hc, ih ht]
  exact congrArg String.mk (main s.data h)

theorem decode_encode_no_backslash_witness :
    ('\\' ∉ ("a\nb\tc" : String).data) ∧ decode (encode "a\nb\tc") = "a\nb\tc" :=
  ⟨by decide, decode_encode_no_backslash "a\nb\tc" (by decide)⟩

/-- Claim C9 is false as stated: the backslash-n string does not round-trip —
it encodes to backslash-backslash-n, which decodes to a newline. -/
theorem decode_encode_not_involutive :
    decode (encode "\\n") ≠ "\\n" ∧ decode (encode "\\n") = "\n" := by
  constructor <;> decide

/-- Claim C10: `Secret.serialize` returns exactly the fixed mask for every
non-None value when displaying — independent of the secret — and the encoded
original value when not displaying. -/
theorem secret_serialize_masks (v w : StrValue) :
    Secret.serialize (some v) true = "********"
    ∧ Secret.serialize (some v) true = Secret.serialize (some w) true
    ∧ Secret.serialize (some v) false = encode v.original := by
  refine ⟨rfl, rfl, ?_⟩
  simp [Secret.serialize, String.serialize]

lemma find?_append_right {α : Type} (r : List (String × α)) (p : String) (f : α)
    (h : r.any (fun e => e.1 == p) = false) :
    (r ++ [(p, f)]).find? (fun e => e.1 == p) = some (p, f) := by
  induction r with
  | nil => simp
  | cons a t ih =>
    simp only [List.any_cons, Bool.or_eq_false_iff] at h
    simpa [List.find?, h.1] using ih h.2

/-- Claim C7: registering the same pattern twice fails with a configuration
error, and the previously bound handler is not replaced. -/
theorem register_twice_fails {α : Type} (p : String) (f g : α)
    (r r' : List (String × α)) (h : register p f r = Except.ok r') :
    (∃ msg, register p g r' = Except.error msg) ∧ lookupHandler p r' = some f := by
  unfold register at h
  cases hany : r.any (fun e => e.1 == p) with
  | true => simp [hany] at h
  | false =>
    simp only [hany, Bool.false_eq_true, if_false, Except.ok.injEq] at h
    subst h
    constructor
    · refine ⟨"Pattern already registered: " ++ p, ?_⟩
      unfold register
      have hm : ((r ++ [(p, f)]).any (fun e => e.1 == p)) = true := by
        simp [List.any_append]
      simp [hm]
    · unfold lookupHandler
      rw [find?_append_right r p f hany]
      rfl

theorem register_twice_fails_witness :
    (∃ msg, register "a pattern" (1 : Nat) [("a pattern", 0)] = Except.error msg)
    ∧ lookupHandler "a pattern" [("a pattern", (0 : Nat))] = some 0 :=
  register_twice_fails "a pattern" 0 1 [] [("a pattern", 0)] rfl

/-- Claim C1 is false as stated: the handler emits the `clearerror` failure
as the exact line `ACK Not implemented` (as its test asserts), which has no
`ACK [<code>@<index>] \x7b<command>\x7d <message>` shape — no string of that
shape lacks a `[`. -/
theorem ack_line_not_bracketed :
    handle_request ⟨ListMode.none, [], ⟨PlaybackState.stopped, []⟩⟩ "clearerror"
      = (⟨ListMode.none, [], ⟨PlaybackState.stopped, []⟩⟩, some ["ACK Not implemented"])
    ∧ ¬ ∃ (code idx cmd msg : String),
        "ACK Not implemented"
          = "ACK [" ++ code ++ "@" ++ idx ++ "] \x7b" ++ cmd ++ "\x7d " ++ msg := by
  constructor
  · decide
  · rintro ⟨code, idx, cmd, msg, h⟩
    have h2 : ('[' : Char)
        ∈ ("ACK [" ++ code ++ "@" ++ idx ++ "] \x7b" ++ cmd ++ "\x7d " ++ msg).data := by
      simp only [String.data_append, List.mem_append]
      exact Or.inl (Or.inl (Or.inl (Or.inl (Or.inl (Or.inl (Or.inl (by decide)))))))
    rw [← h] at h2
    exact absurd h2 (by decide)

/-- Claim C1 (amended): the formatter emits every protocol-error Response as
the single line `ACK <message>`, with no error code, command index or
command name; in particular `clearerror` answers exactly
`ACK Not implemented` and an out-of-bounds `play` answers exactly
`ACK Position out of bounds`, as the tests assert. -/
theorem formatResponse_error_line :
    (∀ a : MpdAck, formatResponse (Response.error a) = ["ACK " ++ a.message])
    ∧ handle_request ⟨ListMode.none, [], ⟨PlaybackState.stopped, []⟩⟩ "clearerror"
        = (⟨ListMode.none, [], ⟨PlaybackState.stopped, []⟩⟩, some ["ACK Not implemented"])
    ∧ handle_request ⟨ListMode.none, [], ⟨PlaybackState.stopped, []⟩⟩ "play \"0\""
        = (⟨ListMode.none, [], ⟨PlaybackState.stopped, []⟩⟩,
           some ["ACK Position out of bounds"]) :=
  ⟨fun _ => rfl, by decide, by decide⟩

/-- Claim C8 is false as stated: `play "0"` against an empty current
playlist answers the exact line `ACK Position out of bounds` (as its test
asserts), which does not have the claimed
`ACK [...] \x7bplay\x7d <message>` shape — no string of that shape lacks
a `[`. -/
theorem play_ack_not_bracketed :
    (handle_request ⟨ListMode.none, [], ⟨PlaybackState.stopped, []⟩⟩ "play \"0\"").2
      = some ["ACK Position out of bounds"]
    ∧ ¬ ∃ (mid msg : String),
        "ACK Position out of bounds" = "ACK [" ++ mid ++ "] \x7bplay\x7d " ++ msg := by
  constructor
  · decide
  · rintro ⟨mid, msg, h⟩
    have h2 : ('[' : Char) ∈ ("ACK [" ++ mid ++ "] \x7bplay\x7d " ++ msg).data := by
      simp only [String.data_append, List.mem_append]
      exact Or.inl (Or.inl (Or.inl (by decide)))
    rw [← h] at h2
    exact absurd h2 (by decide)

/-- Claim C8 (amended): `play "0"` against an empty current playlist yields
the error line `ACK Position out of bounds` and leaves the session and the
backend untouched, the playback state remaining stopped. -/
theorem play_out_of_bounds_plain_ack :
    handle_request ⟨ListMode.none, [], ⟨PlaybackState.stopped, []⟩⟩ "play \"0\""
      = (⟨ListMode.none, [], ⟨PlaybackState.stopped, []⟩⟩,
         some ["ACK Position out of bounds"])
    ∧ (handle_request ⟨ListMode.none, [], ⟨PlaybackState.stopped, []⟩⟩
        "play \"0\"").1.backend.playbackState = PlaybackState.stopped := by
  constructor <;> decide

/-- Claim C2: a request line whose command name matches no registered
pattern dispatches to an `UnknownCommand` error response and leaves the
session state (list mode, buffer and backend) unchanged. -/
theorem dispatch_unknown_command (st : MpdHandler) (line name : String)
    (args : List String)
    (hmode : st.listMode = ListMode.none)
    (hb : line ≠ "command_list_begin") (hob : line ≠ "command_list_ok_begin")
    (he : line ≠ "command_list_end")
    (htok : tokenize line = Except.ok (name :: args))
    (hunk : ¬ knownCommand name) :
    dispatch st line
      = (st, some (Response.error ⟨AckKind.unknownCommand, "Unknown command", 0, line⟩)) := by
  have h1 : name ≠ "ping" := fun e => hunk (Or.inl e)
  have h2 : name ≠ "clearerror" := fun e => hunk (Or.inr (Or.inl e))
  have h3 : name ≠ "stop" := fun e => hunk (Or.inr (Or.inr (Or.inl e)))
  have h4 : name ≠ "play" := fun e => hunk (Or.inr (Or.inr (Or.inr e)))
  have hst : st = ⟨ListMode.none, st.bufferedRequests, st.backend⟩ := by
    rw [← hmode]
  rw [hst]
  simp [dispatch, dispatchTop, hb, hob, he, dispatchCore, htok, runCommand,
    h1, h2, h3, h4]

theorem dispatch_unknown_command_witness :
    dispatch ⟨ListMode.none, [], ⟨PlaybackState.stopped, []⟩⟩ "an unhandled request"
      = (⟨ListMode.none, [], ⟨PlaybackState.stopped, []⟩⟩,
         some (Response.error
           ⟨AckKind.unknownCommand, "Unknown command", 0, "an unhandled request"⟩)) :=
  dispatch_unknown_command _ _ "an" ["unhandled", "request"] rfl (by decide) (by decide)
    (by decide) rfl (by unfold knownCommand; decide)

/-- Claim C5: closing a buffered list `[A, B, C]` under either list mode,
where A succeeds and B fails, executes A and B, never executes C (the final
backend is the one B left, whatever C is), and the emitted error response
carries the 1-based index 2 and the literal buffered text of B. -/
theorem command_list_fail_fast (A B C : String) (b0 b1 b2 : Backend)
    (pA : List String) (aB : MpdAck) (mode : ListMode)
    (hmode : mode ≠ ListMode.none)
    (hA : dispatchCore b0 A = (b1, Response.success pA))
    (hB : dispatchCore b1 B = (b2, Response.error aB)) :
    dispatch ⟨mode, [A, B, C], b0⟩ "command_list_end"
      = (⟨ListMode.none, [], b2⟩,
         some (Response.error { aB with index := 2, commandText := B })) := by
  cases mode with
  | none => exact absurd rfl hmode
  | list => simp [dispatch, dispatchInList, replayCmds, hA, hB]
  | listOk => simp [dispatch, dispatchInList, replayCmds, hA, hB]

theorem command_list_fail_fast_witness :
    dispatch ⟨ListMode.list, ["play \"0\"", "play \"5\"", "stop"],
              ⟨PlaybackState.stopped, [0]⟩⟩ "command_list_end"
      = (⟨ListMode.none, [], ⟨PlaybackState.playing, [0]⟩⟩,
         some (Response.error
           ⟨AckKind.domainError, "Position out of bounds", 2, "play \"5\""⟩)) :=
  command_list_fail_fast "play \"0\"" "play \"5\"" "stop"
    ⟨PlaybackState.stopped, [0]⟩ ⟨PlaybackState.playing, [0]⟩
    ⟨PlaybackState.playing, [0]⟩ []
    ⟨AckKind.domainError, "Position out of bounds", 0, "play \"5\""⟩
    ListMode.list (by decide) (by decide) (by decide)

/-- Claim C6: while a command list is open no response is emitted — the two
list-begin commands answer nothing, and every buffered request answers
nothing and is appended to the buffer; in the begin/ping/end scenario the
only wire output is the terminal `OK`. -/
theorem no_output_while_list_open (st : MpdHandler) (line : String) :
    ((st.listMode = ListMode.none
        ∧ (line = "command_list_begin" ∨ line = "command_list_ok_begin")) →
      (dispatch st line).2 = none)
    ∧ ((st.listMode ≠ ListMode.none
        ∧ line ≠ "command_list_end" ∧ line ≠ "command_list_begin"
        ∧ line ≠ "command_list_ok_begin") →
      dispatch st line
        = ({ st with bufferedRequests := st.bufferedRequests ++ [line] }, none))
    ∧ (feedAll ⟨ListMode.none, [], ⟨PlaybackState.stopped, []⟩⟩
         ["command_list_begin", "ping", "command_list_end"]).2.map
           (Option.map formatResponse)
        = [none, none, some ["OK"]] := by
  refine ⟨?_, ?_, by decide⟩
  · rintro ⟨hm, hl | hl⟩ <;> subst hl <;> simp [dispatch, hm, dispatchTop]
  · rintro ⟨hm, h1, h2, h3⟩
    cases hlm : st.listMode with
    | none => exact absurd hlm hm
    | list => simp [dispatch, hlm, dispatchInList, h1, h2, h3]
    | listOk => simp [dispatch, hlm, dispatchInList, h1, h2, h3]

theorem no_output_while_list_open_witness :
    (dispatch ⟨ListMode.none, [], ⟨PlaybackState.stopped, []⟩⟩
       "command_list_begin").2 = none
    ∧ dispatch ⟨ListMode.list, [], ⟨PlaybackState.stopped, []⟩⟩ "ping"
        = (⟨ListMode.list, ["ping"], ⟨PlaybackState.stopped, []⟩⟩, none) :=
  ⟨(no_output_while_list_open ⟨ListMode.none, [], ⟨PlaybackState.stopped, []⟩⟩
      "command_list_begin").1 ⟨rfl, Or.inl rfl⟩,
   by
    have h := (no_output_while_list_open
        ⟨ListMode.list, [], ⟨PlaybackState.stopped, []⟩⟩ "ping").2.1
      ⟨by decide, by decide, by decide, by decide⟩
    simpa using h⟩

lemma feedAll_buffering : ∀ (cmds : List String), (∀ c ∈ cmds, ControlFree c) →
    ∀ (lm : ListMode) (buf : List String) (bk : Backend), lm ≠ ListMode.none →
    feedAll ⟨lm, buf, bk⟩ cmds
      = (⟨lm, buf ++ cmds, bk⟩, cmds.map fun _ => (none : Option Response))
  | [], _, lm, buf, bk, _ => by simp [feedAll]
  | c :: cs, hcf, lm, buf, bk, hlm => by
    obtain ⟨h1, h2, h3⟩ := hcf c (List.mem_cons_self c cs)
    have hd : dispatch ⟨lm, buf, bk⟩ c = (⟨lm, buf ++ [c], bk⟩, none) := by
      cases lm with
      | none => exact absurd rfl hlm
      | list => simp [dispatch, dispatchInList, h1, h2, h3]
      | listOk => simp [dispatch, dispatchInList, h1, h2, h3]
    have ih := feedAll_buffering cs (fun x hx => hcf x (List.mem_cons_of_mem c hx))
      lm (buf ++ [c]) bk hlm
    simp [feedAll, hd, ih]

lemma replayCmds_ok : ∀ (cmds : List String), (∀ c ∈ cmds, GoodDispatch c) →
    ∀ (lok : Bool) (bk : Backend) (i : Nat),
    ∃ bk' lines, replayCmds lok cmds bk i = (bk', Except.ok lines)
      ∧ lines.count "OK" = 0
      ∧ lines.count "list_OK" = (if lok then cmds.length else 0)
  | [], _, lok, bk, _ => ⟨bk, [], rfl, by simp, by cases lok <;> simp⟩
  | c :: cs, h, lok, bk, i => by
    obtain ⟨b1, p, hd, hp1, hp2⟩ := h c (List.mem_cons_self c cs) bk
    obtain ⟨b2, lines, hr, hc1, hc2⟩ :=
      replayCmds_ok cs (fun x hx => h x (List.mem_cons_of_mem c hx)) lok b1 (i + 1)
    refine ⟨b2, p ++ (if lok then ["list_OK"] else []) ++ lines, ?_, ?_, ?_⟩
    · simp [replayCmds, hd, hr]
    · have e1 : List.count "OK" ["list_OK"] = 0 := by decide
      cases lok <;> simp [List.count_append, hp1, hc1, e1]
    · have e2 : List.count "list_OK" ["list_OK"] = 1 := by decide
      cases lok <;> simp [List.count_append, hp2, hc2, e2]

lemma dispatchInList_close (st : MpdHandler) (lok : Bool) (bk' : Backend)
    (lines : List String)
    (h : replayCmds lok st.bufferedRequests st.backend 1 = (bk', Except.ok lines)) :
    dispatchInList st lok "command_list_end"
      = (⟨ListMode.none, [], bk'⟩, some (Response.success lines)) := by
  unfold dispatchInList
  rw [if_pos rfl, h]

/-- Claim C3: from `NONE`, opening a plain command list, buffering commands
that all replay successfully, then closing the list, answers nothing while
buffering and terminates with a response whose wire lines contain exactly
one `OK` — the final line — and no `list_OK`, the session being reset to
`NONE` with an empty buffer. -/
theorem command_list_round_trip (cmds : List String) (bk : Backend)
    (h : ∀ c ∈ cmds, GoodCmd c) :
    ∃ (bk' : Backend) (lines : List String),
      (feedAll ((dispatch ⟨ListMode.none, [], bk⟩ "command_list_begin").1) cmds).2
          = cmds.map (fun _ => none)
      ∧ dispatch
            (feedAll ((dispatch ⟨ListMode.none, [], bk⟩ "command_list_begin").1) cmds).1
            "command_list_end"
          = (⟨ListMode.none, [], bk'⟩, some (Response.success lines))
      ∧ (formatResponse (Response.success lines)).count "OK" = 1
      ∧ (formatResponse (Response.success lines)).count "list_OK" = 0
      ∧ (formatResponse (Response.success lines)).getLast? = some "OK" := by
  have hstep : (dispatch ⟨ListMode.none, [], bk⟩ "command_list_begin").1
      = ⟨ListMode.list, [], bk⟩ := rfl
  rw [hstep]
  obtain ⟨bk', lines, hrep, hc1, hc2⟩ :=
    replayCmds_ok cmds (fun c hc => (h c hc).2) false bk 1
  have hfeed := feedAll_buffering cmds (fun c hc => (h c hc).1)
    ListMode.list [] bk (by simp)
  rw [hfeed]
  refine ⟨bk', lines, rfl, ?_, ?_, ?_, ?_⟩
  · show dispatchInList ⟨ListMode.list, [] ++ cmds, bk⟩ false "command_list_end" = _
    exact dispatchInList_close _ _ _ _ (by simpa using hrep)
  · have e : List.count "OK" ["OK"] = 1 := by decide
    simp [formatResponse, List.count_append, hc1, e]
  · have e : List.count "list_OK" ["OK"] = 0 := by decide
    simpa [formatResponse, List.count_append, e] using hc2
  · simp [formatResponse, List.getLast?_concat]

theorem command_list_round_trip_witness :
    ∃ (bk' : Backend) (lines : List String),
      (feedAll ((dispatch ⟨ListMode.none, [], ⟨PlaybackState.stopped, []⟩⟩
            "command_list_begin").1) ["ping", "ping"]).2
          = (["ping", "ping"] : List String).map (fun _ => none)
      ∧ dispatch
            (feedAll ((dispatch ⟨ListMode.none, [], ⟨PlaybackState.stopped, []⟩⟩
              "command_list_begin").1) ["ping", "ping"]).1
            "command_list_end"
          = (⟨ListMode.none, [], bk'⟩, some (Response.success lines))
      ∧ (formatResponse (Response.success lines)).count "OK" = 1
      ∧ (formatResponse (Response.success lines)).count "list_OK" = 0
      ∧ (formatResponse (Response.success lines)).getLast? = some "OK" :=
  command_list_round_trip ["ping", "ping"] ⟨PlaybackState.stopped, []⟩ (by
    intro c hc
    have hc' : c = "ping" := by simpa using hc
    subst hc'
    exact ⟨⟨by decide, by decide, by decide⟩, fun bk => ⟨bk, [], rfl, rfl, rfl⟩⟩)

/-- Claim C4: same as the plain round trip but opening the list with the
list-ok-begin command: on success the wire lines contain exactly one
`list_OK` per buffered command, all before the single final `OK`, and the
list mode and buffer are reset. -/
theorem command_list_ok_round_trip (cmds : List String) (bk : Backend)
    (h : ∀ c ∈ cmds, GoodCmd c) :
    ∃ (bk' : Backend) (lines : List String),
      (feedAll ((dispatch ⟨ListMode.none, [], bk⟩ "command_list_ok_begin").1) cmds).2
          = cmds.map (fun _ => none)
      ∧ dispatch
            (feedAll ((dispatch ⟨ListMode.none, [], bk⟩
              "command_list_ok_begin").1) cmds).1
            "command_list_end"
          = (⟨ListMode.none, [], bk'⟩, some (Response.success lines))
      ∧ (formatResponse (Response.success lines)).count "list_OK" = cmds.length
      ∧ (formatResponse (Response.success lines)).count "OK" = 1
      ∧ (formatResponse (Response.success lines)).getLast? = some "OK" := by
  have hstep : (dispatch ⟨ListMode.none, [], bk⟩ "command_list_ok_begin").1
      = ⟨ListMode.listOk, [], bk⟩ := rfl
  rw [hstep]
  obtain ⟨bk', lines, hrep, hc1, hc2⟩ :=
    replayCmds_ok cmds (fun c hc => (h c hc).2) true bk 1
  have hfeed := feedAll_buffering cmds (fun c hc => (h c hc).1)
    ListMode.listOk [] bk (by simp)
  rw [hfeed]
  refine ⟨bk', lines, rfl, ?_, ?_, ?_, ?_⟩
  · show dispatchInList ⟨ListMode.listOk, [] ++ cmds, bk⟩ true "command_list_end" = _
    exact dispatchInList_close _ _ _ _ (by simpa using hrep)
  · have e : List.count "list_OK" ["OK"] = 0 := by decide
    simp only [if_true] at hc2
    simpa [formatResponse, List.count_append, e] using hc2
  · have e : List.count "OK" ["OK"] = 1 := by decide
    simp [formatResponse, List.count_append, hc1, e]
  · simp [formatResponse, List.getLast?_concat]

theorem command_list_ok_round_trip_witness :
    ∃ (bk' : Backend) (lines : List String),
      (feedAll ((dispatch ⟨ListMode.none, [], ⟨PlaybackState.stopped, []⟩⟩
            "command_list_ok_begin").1) ["ping", "ping"]).2
          = (["ping", "ping"] : List String).map (fun _ => none)
      ∧ dispatch
            (feedAll ((dispatch ⟨ListMode.none, [], ⟨PlaybackState.stopped, []⟩⟩
              "command_list_ok_begin").1) ["ping", "ping"]).1
            "command_list_end"
          = (⟨ListMode.none, [], bk'⟩, some (Response.success lines))
      ∧ (formatResponse (Response.success lines)).count "list_OK"
          = (["ping", "ping"] : List String).length
      ∧ (formatResponse (Response.success lines)).count "OK" = 1
      ∧ (formatResponse (Response.success lines)).getLast? = some "OK" :=
  command_list_ok_round_trip ["ping", "ping"] ⟨PlaybackState.stopped, []⟩ (by
    intro c hc
    have hc' : c = "ping" := by simpa using hc
    subst hc'
    exact ⟨⟨by decide, by decide, by decide⟩, fun bk => ⟨bk, [], rfl, rfl, rfl⟩⟩)
